import Mathlib

/-!
Verification of the analysis core of the water-tank level monitor
(`src/analyzer.py`, constants from `src/config.py`).

Modelling conventions:
* Python floats are modelled exactly as rationals (`ℚ`); all the identities
  claimed by the spec are algebraic, so exact arithmetic is the faithful
  reference semantics.
* A sensor reading is a dictionary; the fields the core reads
  (`code`, `event_time`, `value`) are modelled as `Option`s (a missing key is
  `none`).  The value of a reading is either convertible to an `int`
  (`PyValue.intVal`) or raises `ValueError`/`TypeError` under `int(...)`
  (`PyValue.badVal`); `int()` of the default `0` used for a missing value
  always succeeds.
* `pytz` local-time conversion is modelled for a fixed-offset timezone
  (offset in minutes); the configured default `America/Costa_Rica` is the
  fixed offset UTC-6 (no DST), i.e. `offMin = -360`.
* `numpy.polyfit(x, y, 1)` computes the least-squares line; when the design
  matrix has full rank this is the closed-form normal-equation solution.
  The elapsed-time x-axis always starts at 0, so the rank-deficient case is
  exactly "all x equal 0", where `numpy.linalg.lstsq` returns the
  minimum-norm solution: slope 0, intercept mean(y).  `fitSlope`/`fitIntercept`
  below implement both branches.
-/

/-- Outcome of applying Python `int(...)` to a stored value. -/
inductive PyValue where
  | intVal (n : Int)
  | badVal
deriving DecidableEq, Repr

/-- A raw sensor reading as consumed by the analyzer: the three dictionary
keys the core reads.  Other keys are opaque passthrough and not modelled. -/
structure Reading where
  code : Option String
  event_time : Option Int
  value : Option PyValue
deriving DecidableEq, Repr

/-- `int(r.get("value", 0))`: a missing value defaults to `0`, a convertible
value yields its integer, an unconvertible value raises (modelled `none`). -/
def toIntOpt : Option PyValue → Option Int
  | none => some 0
  | some (.intVal n) => some n
  | some .badVal => none

/-- A night reading after filtering: timestamp (ms) and integer depth. -/
structure NR where
  time : Int
  depth : Int
deriving DecidableEq, Repr

instance : Inhabited NR := ⟨⟨0, 0⟩⟩

/-- `NIGHT_START_HOUR` from `config.py` (hard-coded 0). -/
def NIGHT_START_HOUR : Int := 0

/-- `NIGHT_END_HOUR` from `config.py` (hard-coded 6). -/
def NIGHT_END_HOUR : Int := 6

/-- Local hour of a millisecond epoch timestamp under a fixed UTC offset of
`offMin` minutes: `datetime.fromtimestamp(t/1000, UTC).astimezone(tz).hour`. -/
def localHour (offMin t : Int) : Int :=
  ((t + offMin * 60000) / 3600000) % 24

/-- One iteration of the night-filter loop in `analyze_night_period`:
skip non-`liquid_depth` codes, skip a missing or falsy (`0`) `event_time`,
keep only local hours in `[NIGHT_START_HOUR, NIGHT_END_HOUR)`, and skip a
reading whose value `int(...)` conversion raises. -/
def nightAccept (offMin : Int) (r : Reading) : Option NR :=
  if r.code ≠ some "liquid_depth" then none
  else
    match r.event_time with
    | none => none
    | some t =>
      if t = 0 then none
      else if NIGHT_START_HOUR ≤ localHour offMin t ∧ localHour offMin t < NIGHT_END_HOUR then
        match toIntOpt r.value with
        | some d => some ⟨t, d⟩
        | none => none
      else none

/-- The night-filter loop of `analyze_night_period` (lines 38-61). -/
def nightFilter (offMin : Int) (rs : List Reading) : List NR :=
  rs.filterMap (nightAccept offMin)

/-- The monotonic-scrub inner loop: keep `r` iff `r.depth ≥ filtered[-1].depth`
where `last` is the last kept reading. -/
def scrubGo (last : NR) : List NR → List NR
  | [] => []
  | r :: rest =>
    if r.depth ≥ last.depth then r :: scrubGo r rest else scrubGo last rest

/-- The monotonic scrub of `analyze_night_period` (lines 69-73):
`filtered = [night_readings[0]]`, then the greedy loop. -/
def scrub : List NR → List NR
  | [] => []
  | r :: rest => r :: scrubGo r rest

/-! ### Least-squares machinery (`numpy.polyfit(times, depths, 1)`) -/

/-- Sum of `f` over a list of (x, y) points. -/
def sumBy (pts : List (ℚ × ℚ)) (f : ℚ × ℚ → ℚ) : ℚ :=
  (pts.map f).sum

/-- Σ x. -/
def sumX (pts : List (ℚ × ℚ)) : ℚ := sumBy pts (fun p => p.1)

/-- Σ y. -/
def sumY (pts : List (ℚ × ℚ)) : ℚ := sumBy pts (fun p => p.2)

/-- Σ x². -/
def sumXX (pts : List (ℚ × ℚ)) : ℚ := sumBy pts (fun p => p.1 * p.1)

/-- Σ x·y. -/
def sumXY (pts : List (ℚ × ℚ)) : ℚ := sumBy pts (fun p => p.1 * p.2)

/-- Determinant of the normal-equation system: `n·Σx² − (Σx)²`.
Zero exactly when the x-values admit no unique least-squares line. -/
def fitD (pts : List (ℚ × ℚ)) : ℚ :=
  (pts.length : ℚ) * sumXX pts - sumX pts * sumX pts

/-- `np.mean` of the y-values. -/
def meanY (pts : List (ℚ × ℚ)) : ℚ := sumY pts / (pts.length : ℚ)

/-- Slope returned by `np.polyfit(x, y, 1)`: the normal-equation solution
when the system is nonsingular; in the rank-deficient case (all x equal,
which in the analyzer means all elapsed times are 0) `lstsq`'s minimum-norm
solution, slope 0. -/
def fitSlope (pts : List (ℚ × ℚ)) : ℚ :=
  if fitD pts = 0 then 0
  else ((pts.length : ℚ) * sumXY pts - sumX pts * sumY pts) / fitD pts

/-- Intercept returned by `np.polyfit(x, y, 1)` (same case split). -/
def fitIntercept (pts : List (ℚ × ℚ)) : ℚ :=
  if fitD pts = 0 then meanY pts
  else (sumY pts - fitSlope pts * sumX pts) / (pts.length : ℚ)

/-- Sum of squared residuals of the line `y = a·x + b` over the points:
`np.sum((depths - np.polyval([a, b], times)) ** 2)`. -/
def SSE (pts : List (ℚ × ℚ)) (a b : ℚ) : ℚ :=
  sumBy pts (fun p => (p.2 - (a * p.1 + b)) ^ 2)

/-- `ss_tot = np.sum((depths - np.mean(depths)) ** 2)`. -/
def ssTot (pts : List (ℚ × ℚ)) : ℚ :=
  sumBy pts (fun p => (p.2 - meanY pts) ^ 2)

/-- `ss_res` for the fitted coefficients. -/
def ssRes (pts : List (ℚ × ℚ)) : ℚ :=
  SSE pts (fitSlope pts) (fitIntercept pts)

/-- `r_squared = 1 - (ss_res / ss_tot) if ss_tot > 0 else 0`. -/
def rSquared (pts : List (ℚ × ℚ)) : ℚ :=
  if ssTot pts > 0 then 1 - ssRes pts / ssTot pts else 0

/-! ### `analyze_night_period` -/

/-- The sorted, scrubbed night series: `night_readings.sort(key=time)`
followed by the monotonic scrub.  Python's `list.sort` is stable;
`List.insertionSort` inserts each element before later elements with an
equal key, so it is stable in the same sense. -/
def nightFiltered (offMin : Int) (rs : List Reading) : List NR :=
  scrub (List.insertionSort (fun a b => a.time ≤ b.time) (nightFilter offMin rs))

/-- The regression points: x = elapsed hours from the first scrubbed reading
(`(r["time"] - filtered[0]["time"]) / (1000*60*60)`), y = depth. -/
def mkPts : List NR → List (ℚ × ℚ)
  | [] => []
  | f :: rest =>
    (f :: rest).map (fun r => (((r.time - f.time : Int) : ℚ) / 3600000, (r.depth : ℚ)))

/-- The regression points of the scrubbed night series of `rs`. -/
def nightPts (offMin : Int) (rs : List Reading) : List (ℚ × ℚ) :=
  mkPts (nightFiltered offMin rs)

/-- Result record of `analyze_night_period` (the two `isoformat` timestamp
strings are presentation-only and not modelled). -/
structure NightEstimate where
  rate_per_hour : ℚ
  r_squared : ℚ
  start_depth : Int
  end_depth : Int
  duration_hours : ℚ
  reading_count : Nat
deriving DecidableEq, Repr

/-- `analyze_night_period` (analyzer.py lines 19-103), for a fixed-offset
timezone of `offMin` minutes. -/
def analyze_night_period (offMin : Int) (rs : List Reading) : Option NightEstimate :=
  let night := nightFilter offMin rs
  if night.length < 2 then none
  else
    match nightFiltered offMin rs with
    | [] => none
    | [_] => none
    | f :: r :: rest =>
      let filtered := f :: r :: rest
      let pts := mkPts filtered
      let lst := (r :: rest).getLastD r
      some {
        rate_per_hour := fitSlope pts
        r_squared := rSquared pts
        start_depth := f.depth
        end_depth := lst.depth
        duration_hours := ((lst.time - f.time : Int) : ℚ) / 3600000
        reading_count := filtered.length }

/-! ### `estimate_daily_usage` -/

/-- `[r for r in readings if r.get("code") == "liquid_depth"]`. -/
def dayDepthReadings (rs : List Reading) : List Reading :=
  rs.filter (fun r => r.code = some "liquid_depth")

/-- `depth_readings.sort(key=lambda x: x.get("event_time", 0))` (stable,
see `nightFiltered`). -/
def daySorted (rs : List Reading) : List Reading :=
  List.insertionSort (fun a b => a.event_time.getD 0 ≤ b.event_time.getD 0)
    (dayDepthReadings rs)

/-- `try: depths = [int(r.get("value", 0)) for r in depth_readings]
except (ValueError, TypeError): return None` — one unconvertible value
aborts the whole extraction. -/
def extractDepths : List Reading → Option (List Int)
  | [] => some []
  | r :: rest =>
    match toIntOpt r.value, extractDepths rest with
    | some d, some ds => some (d :: ds)
    | _, _ => none

/-- `duration_hours = (end_time - start_time) / (1000*60*60)` over the sorted
day series (0 for an empty series, where the code has already returned). -/
def dayDuration (rs : List Reading) : ℚ :=
  match daySorted rs with
  | [] => 0
  | s :: rest =>
    (((rest.getLastD s).event_time.getD 0 - s.event_time.getD 0 : Int) : ℚ) / 3600000

/-- Result record of `estimate_daily_usage`. -/
structure UsageEstimate where
  start_depth : Int
  end_depth : Int
  min_depth : Int
  max_depth : Int
  net_change : Int
  theoretical_intake_depth : ℚ
  estimated_usage_depth : ℚ
  duration_hours : ℚ
  readings_count : Nat
deriving DecidableEq, Repr

/-- `estimate_daily_usage` (analyzer.py lines 106-176). -/
def estimate_daily_usage (rs : List Reading) (night_fill_rate : ℚ) :
    Option UsageEstimate :=
  match daySorted rs, extractDepths (daySorted rs) with
  | sorted@(_ :: _), some (d :: ds) =>
    let start_depth := d
    let end_depth := ds.getLastD d
    let min_depth := ds.foldl min d
    let max_depth := ds.foldl max d
    let duration_hours := dayDuration rs
    if duration_hours ≤ 0 then none
    else
      let theoretical_intake := night_fill_rate * duration_hours
      let net_change := end_depth - start_depth
      some {
        start_depth := start_depth
        end_depth := end_depth
        min_depth := min_depth
        max_depth := max_depth
        net_change := net_change
        theoretical_intake_depth := theoretical_intake
        estimated_usage_depth := max 0 (theoretical_intake - (net_change : ℚ))
        duration_hours := duration_hours
        readings_count := sorted.length }
  | _, _ => none

/-! ### Unit converters (`depth_to_liters`, `depth_to_percent`, config.py) -/

/-- `LITERS_PER_DEPTH_UNIT = TOTAL_CAPACITY_LITERS / SENSOR_MAX_DEPTH if
SENSOR_MAX_DEPTH > 0 else 0` (config.py line 61), parametrised by the two
configuration constants. -/
def LITERS_PER_DEPTH_UNIT (cap maxD : ℚ) : ℚ :=
  if maxD > 0 then cap / maxD else 0

/-- `depth_to_liters` (analyzer.py lines 179-188). -/
def depth_to_liters (cap maxD depth : ℚ) : ℚ :=
  depth * LITERS_PER_DEPTH_UNIT cap maxD

/-- `depth_to_percent` (analyzer.py lines 191-202). -/
def depth_to_percent (maxD depth : ℚ) : ℚ :=
  if maxD ≤ 0 then 0
  else min 100 (max 0 (depth / maxD * 100))

/-! ### `analyze_day` -/

/-- Python `round(x, n)` with `10^n` scaling.  (Python rounds ties to even
on binary floats; `round` here rounds ties up.  No claim in this
development depends on tie behaviour, only on which fields are present.) -/
def pyRound (n : Nat) (q : ℚ) : ℚ :=
  ((round (q * 10 ^ n) : Int) : ℚ) / 10 ^ n

/-- The night-period fields merged into the daily summary when the night
analysis succeeds (analyzer.py lines 239-246). -/
structure NightSummaryFields where
  night_start_depth : Int
  night_end_depth : Int
  night_duration_hours : ℚ
  night_fill_rate_per_hour : ℚ
  night_r_squared : ℚ
deriving DecidableEq, Repr

/-- The usage fields merged into the daily summary when the usage analysis
succeeds (analyzer.py lines 249-260). -/
structure UsageSummaryFields where
  start_depth : Int
  end_depth : Int
  min_depth : Int
  max_depth : Int
  net_change_depth : Int
  estimated_intake_depth : ℚ
  estimated_intake_liters : ℚ
  estimated_usage_depth : ℚ
  estimated_usage_liters : ℚ
deriving DecidableEq, Repr

/-- The daily summary dictionary: the three always-present keys, plus the
two optional groups of keys added by the two `summary.update(...)` calls. -/
structure DailySummary where
  report_date : String
  readings_count : Nat
  liquid_depth_count : Nat
  night : Option NightSummaryFields
  usage : Option UsageSummaryFields
deriving DecidableEq, Repr

/-- The first `summary.update(...)` of `analyze_day`: the rounded night
fields. -/
def nightSummaryOf (n : NightEstimate) : NightSummaryFields :=
  { night_start_depth := n.start_depth
    night_end_depth := n.end_depth
    night_duration_hours := pyRound 2 n.duration_hours
    night_fill_rate_per_hour := pyRound 2 n.rate_per_hour
    night_r_squared := pyRound 4 n.r_squared }

/-- The second `summary.update(...)` of `analyze_day`, as a function of the
usage estimate and the calibration constants. -/
def usageSummaryOf (cap maxD : ℚ) (u : UsageEstimate) : UsageSummaryFields :=
  { start_depth := u.start_depth
    end_depth := u.end_depth
    min_depth := u.min_depth
    max_depth := u.max_depth
    net_change_depth := u.net_change
    estimated_intake_depth := pyRound 2 u.theoretical_intake_depth
    estimated_intake_liters := pyRound 2 (depth_to_liters cap maxD u.theoretical_intake_depth)
    estimated_usage_depth := pyRound 2 u.estimated_usage_depth
    estimated_usage_liters := pyRound 2 (depth_to_liters cap maxD u.estimated_usage_depth) }

/-- `analyze_day` (analyzer.py lines 205-262).  The date argument is the
already-formatted `date.strftime("%Y-%m-%d")` string (`strftime` itself is
presentation glue outside the analysis core).  `cap`/`maxD` are the
calibration constants used by `depth_to_liters`. -/
def analyze_day (offMin : Int) (cap maxD : ℚ) (rs : List Reading)
    (dateStr : String) : DailySummary :=
  let night_analysis := analyze_night_period offMin rs
  let fill_rate := match night_analysis with
    | some n => n.rate_per_hour
    | none => 0
  let usage_analysis := estimate_daily_usage rs fill_rate
  { report_date := dateStr
    readings_count := rs.length
    liquid_depth_count := (rs.filter (fun r => r.code = some "liquid_depth")).length
    night := night_analysis.map nightSummaryOf
    usage := usage_analysis.map (usageSummaryOf cap maxD) }

/-! ### Concrete inputs used by the claim theorems

All timestamps are milliseconds since epoch; under the default
`America/Costa_Rica` offset (`offMin = -360`), `t = 21600000` (06:00 UTC)
is local midnight, hour 0. -/

/-- Shorthand for the depth metric code. -/
def ld : Option String := some "liquid_depth"

/-- Night readings at local hours 0,1,2,3 with depths 10,12,14,16. -/
def exUniform : List Reading :=
  [⟨ld, some 21600000, some (.intVal 10)⟩,
   ⟨ld, some 25200000, some (.intVal 12)⟩,
   ⟨ld, some 28800000, some (.intVal 14)⟩,
   ⟨ld, some 32400000, some (.intVal 16)⟩]

/-- Night readings with constant depth 10 (zero variance). -/
def exFlat : List Reading :=
  [⟨ld, some 21600000, some (.intVal 10)⟩,
   ⟨ld, some 25200000, some (.intVal 10)⟩,
   ⟨ld, some 28800000, some (.intVal 10)⟩]

/-- A 24-hour day rising from depth 0 to depth 80. -/
def exDay24 : List Reading :=
  [⟨ld, some 1000, some (.intVal 0)⟩,
   ⟨ld, some 86401000, some (.intVal 80)⟩]

/-- A 10-hour day rising from depth 0 to depth 15. -/
def exDay10 : List Reading :=
  [⟨ld, some 1000, some (.intVal 0)⟩,
   ⟨ld, some 36001000, some (.intVal 15)⟩]

/-- Two depth readings one hour apart, the second with an unconvertible
value. -/
def exBadValue : List Reading :=
  [⟨ld, some 1, some (.intVal 5)⟩,
   ⟨ld, some 3600001, some .badVal⟩]

/-- Three night readings; the middle one has an unconvertible value. -/
def exBadNight : List Reading :=
  [⟨ld, some 21600000, some (.intVal 10)⟩,
   ⟨ld, some 25200000, some .badVal⟩,
   ⟨ld, some 28800000, some (.intVal 20)⟩]

/-- Two day readings; the first has no `value` key at all. -/
def exNoValueDay : List Reading :=
  [⟨ld, some 1000, none⟩,
   ⟨ld, some 3601000, some (.intVal 7)⟩]

/-- Three night readings; the first has no `value` key (depth defaults to
0), the later two have depths 5 and 3. -/
def exNoValueNight : List Reading :=
  [⟨ld, some 21600000, none⟩,
   ⟨ld, some 25200000, some (.intVal 5)⟩,
   ⟨ld, some 28800000, some (.intVal 3)⟩]

/-! ### Helper lemmas: sums -/

theorem sumBy_nil (f : ℚ × ℚ → ℚ) : sumBy [] f = 0 := rfl

theorem sumBy_cons (p : ℚ × ℚ) (l : List (ℚ × ℚ)) (f : ℚ × ℚ → ℚ) :
    sumBy (p :: l) f = f p + sumBy l f := by
  simp [sumBy]

theorem sumBy_sq_nonneg (l : List (ℚ × ℚ)) (f : ℚ × ℚ → ℚ) :
    0 ≤ sumBy l (fun p => (f p) ^ 2) := by
  induction l with
  | nil => simp [sumBy]
  | cons p l ih =>
    rw [sumBy_cons]
    positivity

theorem ssTot_nonneg (pts : List (ℚ × ℚ)) : 0 ≤ ssTot pts :=
  sumBy_sq_nonneg pts _

theorem SSE_nonneg (pts : List (ℚ × ℚ)) (a b : ℚ) : 0 ≤ SSE pts a b :=
  sumBy_sq_nonneg pts _

/-- Decomposition of the residual sum of squares of an arbitrary line
around a reference line `(a', b')`. -/
theorem sse_decomp (pts : List (ℚ × ℚ)) (a b a' b' : ℚ) :
    SSE pts a b =
      SSE pts a' b'
        + 2 * (a' - a) * sumBy pts (fun p => (p.2 - (a' * p.1 + b')) * p.1)
        + 2 * (b' - b) * sumBy pts (fun p => p.2 - (a' * p.1 + b'))
        + sumBy pts (fun p => ((a' - a) * p.1 + (b' - b)) ^ 2) := by
  induction pts with
  | nil => simp [SSE, sumBy]
  | cons p l ih =>
    simp only [SSE, sumBy_cons] at ih ⊢
    rw [show (sumBy l fun p => (p.2 - (a * p.1 + b)) ^ 2) =
      (sumBy l fun p => (p.2 - (a' * p.1 + b')) ^ 2)
        + 2 * (a' - a) * sumBy l (fun p => (p.2 - (a' * p.1 + b')) * p.1)
        + 2 * (b' - b) * sumBy l (fun p => p.2 - (a' * p.1 + b'))
        + sumBy l (fun p => ((a' - a) * p.1 + (b' - b)) ^ 2) from ih]
    ring

/-- Residual sum against a line, in terms of the basic sums. -/
theorem sum_resid (pts : List (ℚ × ℚ)) (a b : ℚ) :
    sumBy pts (fun p => p.2 - (a * p.1 + b)) =
      sumY pts - a * sumX pts - b * (pts.length : ℚ) := by
  induction pts with
  | nil => simp [sumBy, sumX, sumY]
  | cons p l ih =>
    simp only [sumY, sumX, sumBy_cons, List.length_cons] at ih ⊢
    rw [ih]
    push_cast
    ring

/-- x-weighted residual sum against a line, in terms of the basic sums. -/
theorem sum_residx (pts : List (ℚ × ℚ)) (a b : ℚ) :
    sumBy pts (fun p => (p.2 - (a * p.1 + b)) * p.1) =
      sumXY pts - a * sumXX pts - b * sumX pts := by
  induction pts with
  | nil => simp [sumBy, sumX, sumXX, sumXY]
  | cons p l ih =>
    simp only [sumXY, sumXX, sumX, sumBy_cons] at ih ⊢
    rw [ih]
    ring

/-- A nonzero normal-equation determinant forces a nonempty point list. -/
theorem length_ne_zero_of_fitD (pts : List (ℚ × ℚ)) (hD : fitD pts ≠ 0) :
    (pts.length : ℚ) ≠ 0 := by
  intro h
  apply hD
  unfold fitD at *
  have hl : pts = [] := by
    cases pts with
    | nil => rfl
    | cons p l =>
      exfalso
      have h0 : (0 : ℚ) ≤ (l.length : ℚ) := Nat.cast_nonneg _
      simp only [List.length_cons, Nat.cast_add, Nat.cast_one] at h
      linarith
  subst hl
  simp [sumX, sumXX, sumBy]

/-- First normal equation: the fitted residuals sum to zero. -/
theorem resid_sum_eq_zero (pts : List (ℚ × ℚ)) (hD : fitD pts ≠ 0) :
    sumBy pts (fun p => p.2 - (fitSlope pts * p.1 + fitIntercept pts)) = 0 := by
  have hn := length_ne_zero_of_fitD pts hD
  rw [sum_resid, fitIntercept, if_neg hD]
  field_simp

/-- Second normal equation: the x-weighted fitted residuals sum to zero. -/
theorem resid_sumx_eq_zero (pts : List (ℚ × ℚ)) (hD : fitD pts ≠ 0) :
    sumBy pts (fun p => (p.2 - (fitSlope pts * p.1 + fitIntercept pts)) * p.1) = 0 := by
  have hn := length_ne_zero_of_fitD pts hD
  rw [sum_residx, fitIntercept, if_neg hD, fitSlope, if_neg hD]
  have hD' := hD
  unfold fitD at hD' ⊢
  field_simp
  ring

/-- The fitted line minimises the residual sum of squares whenever the
normal-equation system is nonsingular. -/
theorem sse_min (pts : List (ℚ × ℚ)) (hD : fitD pts ≠ 0) (a b : ℚ) :
    ssRes pts ≤ SSE pts a b := by
  rw [ssRes, sse_decomp pts a b (fitSlope pts) (fitIntercept pts),
    resid_sum_eq_zero pts hD, resid_sumx_eq_zero pts hD]
  have h := sumBy_sq_nonneg pts (fun p => (fitSlope pts - a) * p.1 + (fitIntercept pts - b))
  linarith

/-- The horizontal line through the mean realises `ss_tot`. -/
theorem sse_mean (pts : List (ℚ × ℚ)) :
    SSE pts 0 (meanY pts) = ssTot pts := by
  simp [SSE, ssTot]

/-- `ss_res ≤ ss_tot`: in the nonsingular case by minimality, in the
rank-deficient case because the fitted line is exactly the mean line. -/
theorem ssRes_le_ssTot (pts : List (ℚ × ℚ)) : ssRes pts ≤ ssTot pts := by
  by_cases hD : fitD pts = 0
  · rw [ssRes, fitSlope, if_pos hD, fitIntercept, if_pos hD, sse_mean]
  · calc ssRes pts ≤ SSE pts 0 (meanY pts) := sse_min pts hD 0 (meanY pts)
      _ = ssTot pts := sse_mean pts

/-- `r_squared` always lands in [0, 1]. -/
theorem rSquared_mem (pts : List (ℚ × ℚ)) :
    0 ≤ rSquared pts ∧ rSquared pts ≤ 1 := by
  unfold rSquared
  split
  case isTrue h =>
    have h1 : ssRes pts / ssTot pts ≤ 1 := (div_le_one h).mpr (ssRes_le_ssTot pts)
    have h2 : 0 ≤ ssRes pts / ssTot pts := div_nonneg (SSE_nonneg _ _ _) (le_of_lt h)
    constructor <;> linarith
  case isFalse h => norm_num

/-! ### Helper lemmas: inversion and scrub invariants -/

theorem usage_inv {rs : List Reading} {rate : ℚ} {u : UsageEstimate}
    (h : estimate_daily_usage rs rate = some u) :
    u.theoretical_intake_depth = rate * u.duration_hours ∧
    (u.net_change : ℚ) = u.end_depth - u.start_depth ∧
    u.estimated_usage_depth = max 0 (u.theoretical_intake_depth - (u.net_change : ℚ)) ∧
    u.duration_hours = dayDuration rs ∧ 0 < u.duration_hours := by
  simp only [estimate_daily_usage] at h
  split at h
  case _ sorted d ds heq1 =>
    split at h
    · exact absurd h (by simp)
    · rename_i hdur
      obtain rfl := Option.some.inj h
      push_neg at hdur
      refine ⟨rfl, ?_, ?_, rfl, hdur⟩
      · push_cast; ring
      · rfl
  case _ => exact absurd h (by simp)

theorem scrubGo_sublist (last : NR) (l : List NR) : (scrubGo last l).Sublist l := by
  induction l generalizing last with
  | nil => simp [scrubGo]
  | cons r rest ih =>
    rw [scrubGo]
    split
    · exact (ih r).cons₂ r
    · exact (ih last).cons r

theorem scrub_sublist (l : List NR) : (scrub l).Sublist l := by
  cases l with
  | nil => simp [scrub]
  | cons r rest => exact (scrubGo_sublist r rest).cons₂ r

theorem scrub_length_le (l : List NR) : (scrub l).length ≤ l.length :=
  (scrub_sublist l).length_le

theorem scrubGo_chain (last : NR) (l : List NR) :
    List.Chain (· ≤ ·) last.depth ((scrubGo last l).map NR.depth) := by
  induction l generalizing last with
  | nil => simp [scrubGo]
  | cons r rest ih =>
    rw [scrubGo]
    split
    · exact List.Chain.cons (by assumption) (ih r)
    · exact ih last

theorem scrub_chain (l : List NR) :
    List.Chain' (· ≤ ·) ((scrub l).map NR.depth) := by
  cases l with
  | nil => simp [scrub]
  | cons r rest => exact scrubGo_chain r rest

theorem analyze_night_some {offMin : Int} {rs : List Reading} {est : NightEstimate}
    (h : analyze_night_period offMin rs = some est) :
    2 ≤ (nightFiltered offMin rs).length ∧
    est.rate_per_hour = fitSlope (nightPts offMin rs) ∧
    est.r_squared = rSquared (nightPts offMin rs) ∧
    est.reading_count = (nightFiltered offMin rs).length := by
  simp only [analyze_night_period] at h
  split at h
  · exact absurd h (by simp)
  · split at h
    case _ heq => exact absurd h (by simp)
    case _ heq => exact absurd h (by simp)
    case _ f r rest heq =>
      obtain rfl := Option.some.inj h
      refine ⟨?_, ?_, ?_, ?_⟩ <;> simp [nightPts, heq]

theorem analyze_night_none_iff (offMin : Int) (rs : List Reading) :
    analyze_night_period offMin rs = none ↔ (nightFiltered offMin rs).length < 2 := by
  constructor
  · intro h
    simp only [analyze_night_period] at h
    split at h
    case _ hlt =>
      calc (nightFiltered offMin rs).length
          ≤ (List.insertionSort (fun a b => a.time ≤ b.time) (nightFilter offMin rs)).length :=
            scrub_length_le _
        _ = (nightFilter offMin rs).length :=
            (List.perm_insertionSort _ _).length_eq
        _ < 2 := hlt
    case _ hlt =>
      split at h
      case _ heq => rw [heq]; simp
      case _ heq => rw [heq]; simp
      case _ f r rest heq => exact absurd h (by simp)
  · intro h
    simp only [analyze_night_period]
    split
    · rfl
    · split
      · rfl
      · rfl
      · case _ f r rest heq => rw [heq] at h; simp at h; omega

/-! ### Further helper lemmas and concrete evaluations -/

/-- Value extraction preserves length when it succeeds. -/
theorem extractDepths_length {l : List Reading} {ds : List Int}
    (h : extractDepths l = some ds) : ds.length = l.length := by
  induction l generalizing ds with
  | nil =>
    simp only [extractDepths, Option.some.injEq] at h
    subst h; rfl
  | cons r rest ih =>
    simp only [extractDepths] at h
    cases hv : toIntOpt r.value with
    | none => rw [hv] at h; exact absurd h (by simp)
    | some d =>
      cases he : extractDepths rest with
      | none => rw [hv, he] at h; exact absurd h (by simp)
      | some ds' =>
        rw [hv, he] at h
        obtain rfl := Option.some.inj h
        simp [ih he]

/-- One unconvertible value in the list aborts the whole extraction. -/
theorem extractDepths_none_of_mem {l : List Reading} {r : Reading}
    (hm : r ∈ l) (hv : toIntOpt r.value = none) : extractDepths l = none := by
  induction l with
  | nil => cases hm
  | cons a rest ih =>
    rcases List.mem_cons.mp hm with rfl | hm'
    · simp [extractDepths, hv]
    · cases toIntOpt a.value <;> simp [extractDepths, ih hm']

/-- The night filter never accepts a reading whose value conversion
raises. -/
theorem nightAccept_none_of_bad {offMin : Int} {b : Reading}
    (h : toIntOpt b.value = none) : nightAccept offMin b = none := by
  unfold nightAccept
  split
  · rfl
  · split
    · rfl
    · split
      · rfl
      · split
        · rw [h]
        · rfl

/-- Sorting the day series is a permutation of the depth-only filter. -/
theorem daySorted_perm (rs : List Reading) :
    List.Perm (daySorted rs) (dayDepthReadings rs) :=
  List.perm_insertionSort _ _

/-- The sorted day series is empty iff there are no depth readings. -/
theorem daySorted_eq_nil_iff (rs : List Reading) :
    daySorted rs = [] ↔ dayDepthReadings rs = [] := by
  constructor
  · intro h
    have := (daySorted_perm rs).length_eq
    rw [h] at this
    exact List.eq_nil_of_length_eq_zero this.symm
  · intro h
    have := (daySorted_perm rs).length_eq
    rw [h] at this
    exact List.eq_nil_of_length_eq_zero this

/-- Evaluation of the night analysis on the uniform example series. -/
theorem exUniform_eval : analyze_night_period (-360) exUniform = some ⟨2, 1, 10, 16, 3, 4⟩ := by
  have h : nightFiltered (-360) exUniform =
      [⟨21600000,10⟩, ⟨25200000,12⟩, ⟨28800000,14⟩, ⟨32400000,16⟩] := by decide
  have hn : ¬ (nightFilter (-360) exUniform).length < 2 := by decide
  simp only [analyze_night_period, h, if_neg hn]
  norm_num [mkPts, fitSlope, fitD, fitIntercept, sumX, sumY, sumXX, sumXY, sumBy,
    rSquared, ssRes, ssTot, SSE, meanY, List.getLastD]

/-- Evaluation of the usage estimator on the 24-hour example. -/
theorem exDay24_eval : estimate_daily_usage exDay24 5 = some ⟨0, 80, 0, 80, 80, 120, 40, 24, 2⟩ := by
  have hs : daySorted exDay24 =
      [⟨ld, some 1000, some (.intVal 0)⟩, ⟨ld, some 86401000, some (.intVal 80)⟩] := by decide
  simp only [estimate_daily_usage, hs, extractDepths, toIntOpt]
  norm_num [dayDuration, hs, List.getLastD, max_def]

/-- Evaluation of the night analysis on the constant-depth example. -/
theorem exFlat_eval : analyze_night_period (-360) exFlat = some ⟨0, 0, 10, 10, 2, 3⟩ := by
  have h : nightFiltered (-360) exFlat =
      [⟨21600000,10⟩, ⟨25200000,10⟩, ⟨28800000,10⟩] := by decide
  have hn : ¬ (nightFilter (-360) exFlat).length < 2 := by decide
  simp only [analyze_night_period, h, if_neg hn]
  norm_num [mkPts, fitSlope, fitD, fitIntercept, sumX, sumY, sumXX, sumXY, sumBy,
    rSquared, ssRes, ssTot, SSE, meanY, List.getLastD]

/-- Evaluation of the usage estimator on the 10-hour example. -/
theorem exDay10_eval : estimate_daily_usage exDay10 1 = some ⟨0, 15, 0, 15, 15, 10, 0, 10, 2⟩ := by
  have hs : daySorted exDay10 =
      [⟨ld, some 1000, some (.intVal 0)⟩, ⟨ld, some 36001000, some (.intVal 15)⟩] := by decide
  simp only [estimate_daily_usage, hs, extractDepths, toIntOpt]
  norm_num [dayDuration, hs, List.getLastD, max_def]

/-- Evaluation of the night analysis on the series with one
unconvertible value: that reading is skipped, the two others remain. -/
theorem exBadNight_eval : analyze_night_period (-360) exBadNight = some ⟨5, 1, 10, 20, 2, 2⟩ := by
  have h : nightFiltered (-360) exBadNight = [⟨21600000,10⟩, ⟨28800000,20⟩] := by decide
  have hn : ¬ (nightFilter (-360) exBadNight).length < 2 := by decide
  simp only [analyze_night_period, h, if_neg hn]
  norm_num [mkPts, fitSlope, fitD, fitIntercept, sumX, sumY, sumXX, sumXY, sumBy,
    rSquared, ssRes, ssTot, SSE, meanY, List.getLastD]

/-- Evaluation of the usage estimator when the first reading has no
value key: it participates as depth 0 and becomes start and min. -/
theorem exNoValueDay_eval : estimate_daily_usage exNoValueDay 0 = some ⟨0, 7, 0, 7, 7, 0, 0, 1, 2⟩ := by
  have hs : daySorted exNoValueDay =
      [⟨ld, some 1000, none⟩, ⟨ld, some 3601000, some (.intVal 7)⟩] := by decide
  simp only [estimate_daily_usage, hs, extractDepths, toIntOpt]
  norm_num [dayDuration, hs, List.getLastD, max_def]

/-- C6 (amended): `estimate_daily_usage` returns null exactly when the day
has zero depth readings, or some depth reading has a value that `int(...)`
cannot convert, or the elapsed duration between the first and last depth
reading is not strictly positive.  (Totality of the Lean model reflects
that no exception escapes for these cases.) -/
theorem C6_amended_iff : ∀ (rs : List Reading) (rate : ℚ),
    estimate_daily_usage rs rate = none ↔
      (dayDepthReadings rs = [] ∨ extractDepths (daySorted rs) = none ∨ dayDuration rs ≤ 0) := by
  intro rs rate
  constructor
  · intro h
    simp only [estimate_daily_usage] at h
    split at h
    case _ sorted d ds heq1 heq2 =>
      split at h
      · rename_i hdur
        exact Or.inr (Or.inr hdur)
      · exact absurd h (by simp)
    case _ hno =>
      by_cases hnil : dayDepthReadings rs = []
      · exact Or.inl hnil
      · have hs : daySorted rs ≠ [] := fun hh => hnil ((daySorted_eq_nil_iff rs).mp hh)
        obtain ⟨s, ss, hcons⟩ := List.exists_cons_of_ne_nil hs
        cases he : extractDepths (daySorted rs) with
        | none => exact Or.inr (Or.inl rfl)
        | some ds =>
          cases ds with
          | nil =>
            have hl := extractDepths_length he
            rw [hcons] at hl
            simp at hl
          | cons d dtl => exact absurd (hno s ss d dtl hcons he) id
  · intro h
    simp only [estimate_daily_usage]
    split
    case _ sorted d ds heq1 heq2 =>
      rcases h with h | h | h
      · rw [(daySorted_eq_nil_iff rs).mpr h] at heq1
        exact absurd heq1 (by simp)
      · rw [h] at heq2
        exact absurd heq2 (by simp)
      · simp [h]
    case _ => rfl

/-- C1: whenever `estimate_daily_usage` produces an estimate, the returned
fields satisfy theoretical_intake = night_fill_rate x duration_hours,
net_change = end_depth - start_depth, and
estimated_usage = max(0, theoretical_intake - net_change), with strictly
positive duration; in particular rate 5.0 over 24h with net change 80
yields usage 40, and rate 1.0 over 10h with net change 15 yields usage 0. -/
theorem C1_usage_formula :
    (∀ (rs : List Reading) (rate : ℚ) (u : UsageEstimate),
        estimate_daily_usage rs rate = some u →
        u.theoretical_intake_depth = rate * u.duration_hours ∧
        (u.net_change : ℚ) = (u.end_depth : ℚ) - (u.start_depth : ℚ) ∧
        u.estimated_usage_depth = max 0 (u.theoretical_intake_depth - (u.net_change : ℚ)) ∧
        0 < u.duration_hours) ∧
    estimate_daily_usage exDay24 5 = some ⟨0, 80, 0, 80, 80, 120, 40, 24, 2⟩ ∧
    estimate_daily_usage exDay10 1 = some ⟨0, 15, 0, 15, 15, 10, 0, 10, 2⟩ := by
  refine ⟨?_, exDay24_eval, exDay10_eval⟩
  intro rs rate u h
  obtain ⟨h1, h2, h3, _, h5⟩ := usage_inv h
  exact ⟨h1, h2, h3, h5⟩

/-- Witness for C1 at the 24-hour example. -/
theorem C1_usage_formula_witness :
    (UsageEstimate.mk 0 80 0 80 80 120 40 24 2).theoretical_intake_depth =
        5 * (UsageEstimate.mk 0 80 0 80 80 120 40 24 2).duration_hours ∧
      ((UsageEstimate.mk 0 80 0 80 80 120 40 24 2).net_change : ℚ) =
        ((UsageEstimate.mk 0 80 0 80 80 120 40 24 2).end_depth : ℚ) -
          ((UsageEstimate.mk 0 80 0 80 80 120 40 24 2).start_depth : ℚ) ∧
      (UsageEstimate.mk 0 80 0 80 80 120 40 24 2).estimated_usage_depth =
        max 0 ((UsageEstimate.mk 0 80 0 80 80 120 40 24 2).theoretical_intake_depth -
          ((UsageEstimate.mk 0 80 0 80 80 120 40 24 2).net_change : ℚ)) ∧
      0 < (UsageEstimate.mk 0 80 0 80 80 120 40 24 2).duration_hours :=
  C1_usage_formula.1 exDay24 5 _ C1_usage_formula.2.1

/-- C2: the monotonic scrub keeps the first reading unconditionally and
keeps each subsequent reading iff its depth is at least the depth of the
last kept reading; applied inside `analyze_night_period` to the
timestamp-sorted night series; for depths [10, 8, 12, 11, 15] it keeps
exactly [10, 12, 15]; the result is a subsequence with nondecreasing
depths. -/
theorem C2_monotonic_scrub :
    (scrub [⟨1,10⟩, ⟨2,8⟩, ⟨3,12⟩, ⟨4,11⟩, ⟨5,15⟩]).map NR.depth = [10, 12, 15] ∧
    (∀ (a : NR) (l : List NR), scrub (a :: l) = a :: scrubGo a l) ∧
    (∀ (last r : NR) (rest : List NR),
        scrubGo last (r :: rest) =
          if r.depth ≥ last.depth then r :: scrubGo r rest else scrubGo last rest) ∧
    (∀ (offMin : Int) (rs : List Reading),
        nightFiltered offMin rs =
          scrub (List.insertionSort (fun a b => a.time ≤ b.time) (nightFilter offMin rs))) ∧
    (∀ l : List NR, (scrub l).Sublist l) ∧
    (∀ l : List NR, List.Chain' (· ≤ ·) ((scrub l).map NR.depth)) :=
  ⟨by decide, fun _ _ => rfl, fun _ _ _ => rfl, fun _ _ => rfl, scrub_sublist, scrub_chain⟩

/-- C3: the rate returned by `analyze_night_period` is the slope of the
ordinary least-squares degree-1 fit of depth against elapsed hours
(whenever that fit is uniquely determined, the returned slope and
intercept minimise the sum of squared residuals over all lines); for
depths [10,12,14,16] at elapsed hours [0,1,2,3] it returns
rate_per_hour = 2.0 and fit_quality = 1.0. -/
theorem C3_rate_ols :
    (∀ (offMin : Int) (rs : List Reading) (est : NightEstimate),
        analyze_night_period offMin rs = some est →
        est.rate_per_hour = fitSlope (nightPts offMin rs) ∧
        (fitD (nightPts offMin rs) ≠ 0 →
          ∀ a b : ℚ,
            SSE (nightPts offMin rs) est.rate_per_hour (fitIntercept (nightPts offMin rs)) ≤
              SSE (nightPts offMin rs) a b)) ∧
    analyze_night_period (-360) exUniform = some ⟨2, 1, 10, 16, 3, 4⟩ := by
  refine ⟨?_, exUniform_eval⟩
  intro offMin rs est h
  obtain ⟨-, hrate, -, -⟩ := analyze_night_some h
  refine ⟨hrate, fun hD a b => ?_⟩
  rw [hrate]
  exact sse_min _ hD a b

/-- Witness for C3 at the uniform example. -/
theorem C3_rate_ols_witness :
    (NightEstimate.mk 2 1 10 16 3 4).rate_per_hour = fitSlope (nightPts (-360) exUniform) ∧
    SSE (nightPts (-360) exUniform) (NightEstimate.mk 2 1 10 16 3 4).rate_per_hour
        (fitIntercept (nightPts (-360) exUniform)) ≤
      SSE (nightPts (-360) exUniform) 0 0 := by
  have hpts : nightPts (-360) exUniform = [(0, 10), (1, 12), (2, 14), (3, 16)] := by
    have h : nightFiltered (-360) exUniform =
        [⟨21600000,10⟩, ⟨25200000,12⟩, ⟨28800000,14⟩, ⟨32400000,16⟩] := by decide
    rw [nightPts, h]
    norm_num [mkPts]
  have hD : fitD (nightPts (-360) exUniform) ≠ 0 := by
    rw [hpts]
    norm_num [fitD, sumX, sumXX, sumBy]
  have h := C3_rate_ols.1 (-360) exUniform _ C3_rate_ols.2
  exact ⟨h.1, h.2 hD 0 0⟩

/-- C4: every fit quality returned by `analyze_night_period` lies in
[0, 1]; it equals 1 - SS_res/SS_tot when SS_tot > 0 and 0 when
SS_tot = 0, with no division error (the model is total); constant depths
[10,10,10] give fit quality 0. -/
theorem C4_r_squared_bounds :
    (∀ (offMin : Int) (rs : List Reading) (est : NightEstimate),
        analyze_night_period offMin rs = some est →
        (0 ≤ est.r_squared ∧ est.r_squared ≤ 1) ∧
        (0 < ssTot (nightPts offMin rs) →
          est.r_squared = 1 - ssRes (nightPts offMin rs) / ssTot (nightPts offMin rs)) ∧
        (ssTot (nightPts offMin rs) = 0 → est.r_squared = 0)) ∧
    analyze_night_period (-360) exFlat = some ⟨0, 0, 10, 10, 2, 3⟩ := by
  refine ⟨?_, exFlat_eval⟩
  intro offMin rs est h
  obtain ⟨-, -, hr2, -⟩ := analyze_night_some h
  rw [hr2]
  refine ⟨rSquared_mem _, fun hpos => ?_, fun hzero => ?_⟩
  · rw [rSquared, if_pos hpos]
  · rw [rSquared, if_neg (by rw [hzero]; exact lt_irrefl 0)]

/-- Witness for C4 at the constant-depth example. -/
theorem C4_r_squared_bounds_witness :
    ((0 : ℚ) ≤ (NightEstimate.mk 0 0 10 10 2 3).r_squared ∧
      (NightEstimate.mk 0 0 10 10 2 3).r_squared ≤ 1) ∧
    (NightEstimate.mk 0 0 10 10 2 3).r_squared = 0 := by
  have hpts : nightPts (-360) exFlat = [(0, 10), (1, 10), (2, 10)] := by
    have h : nightFiltered (-360) exFlat =
        [⟨21600000,10⟩, ⟨25200000,10⟩, ⟨28800000,10⟩] := by decide
    rw [nightPts, h]
    norm_num [mkPts]
  have hzero : ssTot (nightPts (-360) exFlat) = 0 := by
    rw [hpts]
    norm_num [ssTot, meanY, sumY, sumBy]
  have h := C4_r_squared_bounds.1 (-360) exFlat _ C4_r_squared_bounds.2
  exact ⟨h.1, h.2.2 hzero⟩

/-- C5: `analyze_night_period` returns null iff the scrubbed night depth
series has fewer than 2 elements, and any returned estimate carries a
sample count of at least 2. -/
theorem C5_night_insufficient :
    ∀ (offMin : Int) (rs : List Reading),
      (analyze_night_period offMin rs = none ↔ (nightFiltered offMin rs).length < 2) ∧
      (∀ est : NightEstimate,
        analyze_night_period offMin rs = some est → 2 ≤ est.reading_count) := by
  intro offMin rs
  refine ⟨analyze_night_none_iff offMin rs, fun est h => ?_⟩
  obtain ⟨hlen, -, -, hcount⟩ := analyze_night_some h
  rw [hcount]
  exact hlen

/-- Witness for C5 at the constant-depth example. -/
theorem C5_night_insufficient_witness :
    2 ≤ (NightEstimate.mk 0 0 10 10 2 3).reading_count :=
  (C5_night_insufficient (-360) exFlat).2 _ exFlat_eval

/-- C6 (counterexample): a day with two depth readings one hour apart,
the second with an unconvertible value, has at least one depth reading
and strictly positive duration, yet `estimate_daily_usage` returns null -
refuting the claim that null is returned exactly for the two sparsity
conditions. -/
theorem C6_counterexample_thm :
    estimate_daily_usage exBadValue 0 = none ∧
    (dayDepthReadings exBadValue).length = 2 ∧
    0 < dayDuration exBadValue := by
  refine ⟨by decide, by decide, ?_⟩
  have hs : daySorted exBadValue =
      [⟨ld, some 1, some (.intVal 5)⟩, ⟨ld, some 3600001, some .badVal⟩] := by decide
  norm_num [dayDuration, hs, List.getLastD]

/-- C7: `analyze_day` always returns a record carrying the report date
and both reading counts, and when the night analysis yields no estimate
the summary has no night fields and its usage fields are those of
`estimate_daily_usage` run with fill rate 0. -/
theorem C7_summary_total :
    ∀ (offMin : Int) (cap maxD : ℚ) (rs : List Reading) (dateStr : String),
      (analyze_day offMin cap maxD rs dateStr).report_date = dateStr ∧
      (analyze_day offMin cap maxD rs dateStr).readings_count = rs.length ∧
      (analyze_day offMin cap maxD rs dateStr).liquid_depth_count = (dayDepthReadings rs).length ∧
      (analyze_night_period offMin rs = none →
        (analyze_day offMin cap maxD rs dateStr).night = none ∧
        (analyze_day offMin cap maxD rs dateStr).usage =
          (estimate_daily_usage rs 0).map (usageSummaryOf cap maxD)) := by
  intro offMin cap maxD rs dateStr
  refine ⟨rfl, rfl, rfl, fun hnone => ?_⟩
  constructor <;> simp [analyze_day, hnone]

/-- Witness for C7 at the empty reading list. -/
theorem C7_summary_total_witness :
    (analyze_day (-360) 1000 120 [] "2024-01-01").night = none ∧
    (analyze_day (-360) 1000 120 [] "2024-01-01").usage =
      (estimate_daily_usage [] 0).map (usageSummaryOf 1000 120) :=
  (C7_summary_total (-360) 1000 120 [] "2024-01-01").2.2.2 (by decide)

/-- C8: the unit converters are total: `depth_to_liters` multiplies by
the conversion factor, which is capacity/max-depth for positive max
depth and 0 otherwise; `depth_to_percent` clamps (depth/max)*100 to
[0, 100] and returns 0 for non-positive max depth; with max depth 120
and capacity 1000, depth_to_liters 60 = 500, depth_to_percent 150 = 100
and depth_to_percent (-5) = 0. -/
theorem C8_unit_converters :
    (∀ cap maxD depth : ℚ,
        depth_to_liters cap maxD depth = depth * LITERS_PER_DEPTH_UNIT cap maxD) ∧
    (∀ cap maxD : ℚ, 0 < maxD → LITERS_PER_DEPTH_UNIT cap maxD = cap / maxD) ∧
    (∀ cap : ℚ, LITERS_PER_DEPTH_UNIT cap 0 = 0) ∧
    (∀ maxD depth : ℚ, maxD ≤ 0 → depth_to_percent maxD depth = 0) ∧
    (∀ maxD depth : ℚ, 0 < maxD →
        depth_to_percent maxD depth = min 100 (max 0 (depth / maxD * 100))) ∧
    depth_to_liters 1000 120 60 = 500 ∧
    depth_to_percent 120 150 = 100 ∧
    depth_to_percent 120 (-5) = 0 := by
  refine ⟨fun _ _ _ => rfl, ?_, ?_, ?_, ?_, ?_, ?_, ?_⟩
  · intro cap maxD h
    rw [LITERS_PER_DEPTH_UNIT, if_pos h]
  · intro cap
    rw [LITERS_PER_DEPTH_UNIT, if_neg (lt_irrefl 0)]
  · intro maxD depth h
    rw [depth_to_percent, if_pos h]
  · intro maxD depth h
    rw [depth_to_percent, if_neg (not_le.mpr h)]
  · norm_num [depth_to_liters, LITERS_PER_DEPTH_UNIT]
  · norm_num [depth_to_percent, max_def, min_def]
  · norm_num [depth_to_percent, max_def, min_def]

/-- Witness for C8 at concrete calibration constants. -/
theorem C8_unit_converters_witness :
    LITERS_PER_DEPTH_UNIT 1000 120 = 1000 / 120 ∧ depth_to_percent (-1) 7 = 0 :=
  ⟨C8_unit_converters.2.1 1000 120 (by norm_num),
   C8_unit_converters.2.2.2.1 (-1) 7 (by norm_num)⟩

/-- C9 (counterexample): with a missing-value first night reading
(depth 0) followed by depths 5 and 3, the scrub keeps only [0, 5] out of
3 night readings - refuting the clause that a depth-0 first reading
makes the scrub keep every later reading. -/
theorem C9_counterexample_thm :
    (exNoValueNight.head?.map Reading.value) = some none ∧
    (nightFilter (-360) exNoValueNight).length = 3 ∧
    (nightFiltered (-360) exNoValueNight).map NR.depth = [0, 5] := by
  decide

/-- C9 (amended): a liquid_depth reading with a valid timestamp and no
value field is not skipped: both analyzers substitute the default 0, so
it participates as a depth-0 reading (it can become start_depth and
min_depth), and as the first kept night reading it sets the scrub's
threshold to 0, so the next reading is kept iff its depth is >= 0
(later readings are still compared against the last kept depth). -/
theorem C9_missing_value :
    toIntOpt none = some 0 ∧
    (∀ (offMin t : Int) (r : Reading),
        r.code = some "liquid_depth" → r.event_time = some t → t ≠ 0 →
        NIGHT_START_HOUR ≤ localHour offMin t → localHour offMin t < NIGHT_END_HOUR →
        r.value = none →
        nightAccept offMin r = some ⟨t, 0⟩) ∧
    estimate_daily_usage exNoValueDay 0 = some ⟨0, 7, 0, 7, 7, 0, 0, 1, 2⟩ ∧
    (∀ (t : Int) (r : NR) (rest : List NR),
        scrubGo ⟨t, 0⟩ (r :: rest) =
          if r.depth ≥ 0 then r :: scrubGo r rest else scrubGo ⟨t, 0⟩ rest) := by
  refine ⟨rfl, ?_, exNoValueDay_eval, fun _ _ _ => rfl⟩
  intro offMin t r hcode het ht h1 h2 hval
  simp [nightAccept, hcode, het, ht, h1, h2, hval, toIntOpt]

/-- Witness for C9 at a concrete missing-value reading. -/
theorem C9_missing_value_witness :
    nightAccept (-360) ⟨some "liquid_depth", some 21600000, none⟩ = some ⟨21600000, 0⟩ :=
  C9_missing_value.2.1 (-360) 21600000 _ rfl rfl (by decide) (by decide) (by decide) rfl

/-- C10: one unconvertible depth value makes `estimate_daily_usage`
return null for the whole day, while `analyze_night_period` skips only
that reading and continues; on the example with values 10, bad, 20 the
usage estimator returns null but the night analysis still returns an
estimate with 2 samples. -/
theorem C10_unconvertible_value :
    (∀ (rs : List Reading) (rate : ℚ) (r : Reading),
        r ∈ dayDepthReadings rs → toIntOpt r.value = none →
        estimate_daily_usage rs rate = none) ∧
    (∀ (offMin : Int) (b : Reading) (xs ys : List Reading),
        toIntOpt b.value = none →
        nightFilter offMin (xs ++ b :: ys) = nightFilter offMin (xs ++ ys)) ∧
    estimate_daily_usage exBadNight 0 = none ∧
    analyze_night_period (-360) exBadNight = some ⟨5, 1, 10, 20, 2, 2⟩ := by
  refine ⟨?_, ?_, by decide, exBadNight_eval⟩
  · intro rs rate r hmem hval
    have hmem' : r ∈ daySorted rs := ((daySorted_perm rs).mem_iff).mpr hmem
    have hnone := extractDepths_none_of_mem hmem' hval
    simp only [estimate_daily_usage]
    split
    case _ sorted d ds heq1 heq2 =>
      rw [hnone] at heq2
      exact absurd heq2 (by simp)
    case _ => rfl
  · intro offMin b xs ys h
    simp [nightFilter, List.filterMap_append, List.filterMap_cons, nightAccept_none_of_bad h]

/-- Witness for C10 at the bad-value night series. -/
theorem C10_unconvertible_value_witness :
    estimate_daily_usage exBadNight 0 = none :=
  C10_unconvertible_value.1 exBadNight 0 ⟨ld, some 25200000, some .badVal⟩ (by decide) rfl
